import Mathlib

/-!
Verification development for the safe-relay-service core:
shallow embedding of `relay/models.py`, `relay/views_v2.py` and
`safe/redis_service.py`, with theorems settling the specification claims.
-/

namespace SafeRelay

/-! ## `EthereumTxCallType` and `parse_call_type` (models.py lines 17-30) -/

inductive EthereumTxCallType where
  | CALL
  | DELEGATE_CALL
  deriving DecidableEq, Repr

/-- Python's `str.lower()`, character by character (the strings compared by
the source are ASCII). -/
def pyLower (s : String) : String :=
  ⟨s.data.map Char.toLower⟩

/-- Embeds `EthereumTxCallType.parse_call_type`.  The Python argument can be
`None` or a string, so the input is `Option String`; Python's
`if not call_type` is true for `None` and for the empty string. -/
def parse_call_type (call_type : Option String) : Option EthereumTxCallType :=
  match call_type with
  | none => none
  | some s =>
    if s = "" then none
    else if pyLower s = "call" then some EthereumTxCallType.CALL
    else if pyLower s = "delegatecall" then some EthereumTxCallType.DELEGATE_CALL
    else none

/-! ## `SafeFunding` (models.py lines 159-200)

Only the boolean flags and the two nullable transaction hashes are consulted
by `status()`; the hashes are nullable strings. -/

structure SafeFunding where
  safe : String
  safe_funded : Bool := false
  deployer_funded : Bool := false
  deployer_funded_tx_hash : Option String := none
  safe_deployed : Bool := false
  safe_deployed_tx_hash : Option String := none
  deriving DecidableEq, Repr

/-- Embeds `SafeFunding.status` (models.py lines 172-184): a cascade of
`if/elif` over the recorded facts, returning the status strings of the
source. -/
def SafeFunding.status (f : SafeFunding) : String :=
  if f.safe_deployed then "DEPLOYED"
  else if f.safe_deployed_tx_hash.isSome then "DEPLOYED_UNCHECKED"
  else if f.deployer_funded then "DEPLOYER_FUNDED"
  else if f.deployer_funded_tx_hash.isSome then "DEPLOYER_FUNDED_UNCHECKED"
  else if f.safe_funded then "DEPLOYER_NOT_FUNDED_SAFE_WITH_BALANCE"
  else "SAFE_WITHOUT_BALANCE"

/-- Embeds `SafeFunding.is_all_funded`. -/
def SafeFunding.is_all_funded (f : SafeFunding) : Bool :=
  f.safe_funded && f.deployer_funded

/-- The lifecycle evaluation written from the spec's words (section 4.3):
the six lifecycle states in fixed priority order — mined deployment first,
then recorded deployment hash, mined deployer funding, recorded
deployer-funding hash, observed balance, and not-funded last.  The spec's
state names map to the source's strings as
`DEPLOYED ↦ DEPLOYED`, `DEPLOYED_UNCONFIRMED ↦ DEPLOYED_UNCHECKED`,
`DEPLOYER_FUNDED ↦ DEPLOYER_FUNDED`,
`DEPLOYER_FUNDED_UNCONFIRMED ↦ DEPLOYER_FUNDED_UNCHECKED`,
`FUNDED_AWAITING_DEPLOYER ↦ DEPLOYER_NOT_FUNDED_SAFE_WITH_BALANCE`,
`NOT_FUNDED ↦ SAFE_WITHOUT_BALANCE`. -/
def statusSpec (f : SafeFunding) : String :=
  if f.safe_deployed then "DEPLOYED"
  else if f.safe_deployed_tx_hash.isSome then "DEPLOYED_UNCHECKED"
  else if f.deployer_funded then "DEPLOYER_FUNDED"
  else if f.deployer_funded_tx_hash.isSome then "DEPLOYER_FUNDED_UNCHECKED"
  else if f.safe_funded then "DEPLOYER_NOT_FUNDED_SAFE_WITH_BALANCE"
  else "SAFE_WITHOUT_BALANCE"

/-- Position of a status string in the lifecycle ordering
`NOT_FUNDED < FUNDED_AWAITING_DEPLOYER < DEPLOYER_FUNDED_UNCONFIRMED <
DEPLOYER_FUNDED < DEPLOYED_UNCONFIRMED < DEPLOYED` (spec names; source
strings used here). -/
def statusRank (s : String) : Nat :=
  if s = "DEPLOYED" then 5
  else if s = "DEPLOYED_UNCHECKED" then 4
  else if s = "DEPLOYER_FUNDED" then 3
  else if s = "DEPLOYER_FUNDED_UNCHECKED" then 2
  else if s = "DEPLOYER_NOT_FUNDED_SAFE_WITH_BALANCE" then 1
  else 0

/-- Fact order: `F1 ≤ F2` when every boolean flag set in `F1` is set in
`F2`, and every non-null hash of `F1` is non-null in `F2`. -/
def FactsLE (f1 f2 : SafeFunding) : Prop :=
  (f1.safe_funded → f2.safe_funded = true) ∧
  (f1.deployer_funded → f2.deployer_funded = true) ∧
  (f1.deployer_funded_tx_hash.isSome → f2.deployer_funded_tx_hash.isSome = true) ∧
  (f1.safe_deployed → f2.safe_deployed = true) ∧
  (f1.safe_deployed_tx_hash.isSome → f2.safe_deployed_tx_hash.isSome = true)

/-! ## `SafeMultisigTx` (models.py lines 241-263)

`class Meta: unique_together = (('safe', 'nonce'),)` — the store rejects an
insert that repeats a (safe, nonce) pair; Django surfaces the rejected write
as an integrity error, which the spec treats as a no-op
(`PersistenceConflict`). -/

structure SafeMultisigTx where
  safe : String
  «to» : Option String := none
  value : Nat := 0
  operation : Nat := 0
  safe_tx_gas : Nat := 0
  data_gas : Nat := 0
  gas_price : Nat := 0
  gas_token : Option String := none
  refund_receiver : Option String := none
  nonce : Nat
  safe_tx_hash : Option String := none
  deriving DecidableEq, Repr

/-- The `(safe, nonce)` composite key is not yet taken in the store. -/
def multisigKeyFree (db : List SafeMultisigTx) (tx : SafeMultisigTx) : Bool :=
  db.all (fun r => !(r.safe = tx.safe && r.nonce = tx.nonce))

/-- Insert under the `unique_together (safe, nonce)` constraint: `none`
models the integrity error raised on a duplicate key. -/
def insertMultisigTx (db : List SafeMultisigTx) (tx : SafeMultisigTx) :
    Option (List SafeMultisigTx) :=
  if multisigKeyFree db tx then some (db ++ [tx]) else none

/-- Runs a sequence of inserts against the store starting from `db`;
a rejected insert leaves the store unchanged (the `PersistenceConflict`
no-op of the spec's error taxonomy). -/
def applyInserts (db : List SafeMultisigTx) (txs : List SafeMultisigTx) :
    List SafeMultisigTx :=
  txs.foldl (fun d tx => (insertMultisigTx d tx).getD d) db

/-- No two records of the store share the `(safe, nonce)` composite key. -/
def multisigKeyUnique (db : List SafeMultisigTx) : Prop :=
  db.Pairwise (fun a b => ¬(a.safe = b.safe ∧ a.nonce = b.nonce))

/-- Embeds `SafeMultisigTxManager.get_last_nonce_for_safe`
(models.py lines 236-238): filter the store by safe address, order by
descending nonce, take the first — i.e. the maximum nonce — and return its
nonce, or `None` when no record matches. -/
def get_last_nonce_for_safe (db : List SafeMultisigTx) (safe_address : String) :
    Option Nat :=
  ((db.filter (fun t => t.safe = safe_address)).map (fun t => t.nonce)).max?

/-- Modelled from the spec: the Sequencer (spec section 4.5, not under
`src/`) "allocates the next nonce for the wallet by reading the highest
previously assigned nonce and adding one"; a wallet with no transactions
starts at nonce 0. -/
def sequencerNextNonce (db : List SafeMultisigTx) (safe_address : String) : Nat :=
  match get_last_nonce_for_safe db safe_address with
  | none => 0
  | some n => n + 1

/-! ## `SafeContract` and `SafeCreation2` (models.py lines 40-138) -/

structure SafeContract where
  address : String
  master_copy : String := ""
  deriving DecidableEq, Repr

structure SafeCreation2 where
  safe : String
  master_copy : String := ""
  proxy_factory : String := ""
  salt_nonce : Nat := 0
  owners : List String := []
  threshold : Nat := 1
  payment_token : Option String := none
  payment : Nat := 0
  payment_receiver : Option String := none
  gas_estimated : Nat := 0
  gas_price_estimated : Nat := 0
  tx_hash : Option String := none
  block_number : Option Int := none
  deriving DecidableEq, Repr

/-- Embeds `SafeCreation2.deployed`. -/
def SafeCreation2.deployed (c : SafeCreation2) : Bool :=
  c.block_number.isSome

/-- Embeds `SafeCreation2.wei_estimated_deploy_cost`. -/
def SafeCreation2.wei_estimated_deploy_cost (c : SafeCreation2) : Nat :=
  c.gas_estimated * c.gas_price_estimated

/-- The stores the v2 views read: `SafeContract`, `SafeCreation2` and
`SafeFunding` rows. -/
structure RelayDB where
  safe_contracts : List SafeContract := []
  safe_creation2s : List SafeCreation2 := []
  safe_fundings : List SafeFunding := []
  deriving DecidableEq, Repr

/-! ## Views (views_v2.py `SafeSignalView`)

`Web3.isChecksumAddress` is an external collaborator (spec section 6:
`is_checksum_address(string) -> bool` from the node client stack), so the
view functions take it as a parameter.  Any faithful instance of it returns
`false` on strings that are not `0x` followed by 40 hex digits;
`hexAddressWellFormed` captures that necessary condition. -/

def hexAddressWellFormed (s : String) : Bool :=
  match s.data with
  | '0' :: 'x' :: rest =>
    rest.length = 40 && rest.all (fun c => c.isDigit || c ∈ ['a', 'b', 'c', 'd', 'e', 'f', 'A', 'B', 'C', 'D', 'E', 'F'])
  | _ => false

/-- The payload of `SafeFunding2ResponseSerializer`.  Modelled from the spec:
`serializers.py` is not under `src/`; the spec gives the shape
`get_status(address) -> {funding_status, submission_tx_hash?, block_number?}`. -/
structure SignalPayload where
  funding_status : String
  tx_hash : Option String
  block_number : Option Int
  deriving DecidableEq, Repr

/-- Modelled from the spec: the serializer derives the funding status from
the `SafeCreation2` record's mined/submitted facts (deployed once mined, a
recorded hash means submitted-unconfirmed) and carries the optional
submission hash and block number verbatim. -/
def serializeFunding2 (c : SafeCreation2) : SignalPayload :=
  { funding_status :=
      if c.block_number.isSome then "DEPLOYED"
      else if c.tx_hash.isSome then "DEPLOYED_UNCHECKED"
      else "SAFE_WITHOUT_BALANCE",
    tx_hash := c.tx_hash,
    block_number := c.block_number }

inductive SignalGetResponse where
  | ok : SignalPayload → SignalGetResponse
  | notFound
  | unprocessableEntity
  deriving DecidableEq, Repr

inductive SignalPutResponse where
  | accepted
  | notFound
  | unprocessableEntity
  deriving DecidableEq, Repr

/-- Embeds `SafeSignalView.get` (views_v2.py lines 92-104): reject a
non-checksummed address with 422; otherwise look up the `SafeCreation2`
record for the address, serialize it with 200, or answer 404 when it does
not exist.  The view performs no writes, so it returns the store unchanged. -/
def safeSignalGet (isChecksumAddress : String → Bool) (db : RelayDB)
    (address : String) : SignalGetResponse × RelayDB :=
  if !(isChecksumAddress address) then (SignalGetResponse.unprocessableEntity, db)
  else
    match db.safe_creation2s.find? (fun c => c.safe = address) with
    | some c => (SignalGetResponse.ok (serializeFunding2 c), db)
    | none => (SignalGetResponse.notFound, db)

/-- Embeds `SafeSignalView.put` (views_v2.py lines 109-122): reject a
non-checksummed address with 422; answer 404 when no `SafeContract` row
exists for the address; otherwise enqueue `deploy_create2_safe_task` for the
address and answer 202.  The second component is the list of enqueued task
arguments; the store is returned unchanged. -/
def safeSignalPut (isChecksumAddress : String → Bool) (db : RelayDB)
    (address : String) : SignalPutResponse × List String × RelayDB :=
  if !(isChecksumAddress address) then (SignalPutResponse.unprocessableEntity, [], db)
  else
    match db.safe_contracts.find? (fun c => c.address = address) with
    | none => (SignalPutResponse.notFound, [], db)
    | some _ => (SignalPutResponse.accepted, [address], db)

/-! ## Submission-hash recording

The writers that record `SafeCreation2.tx_hash`,
`SafeFunding.deployer_funded_tx_hash` and `SafeFunding.safe_deployed_tx_hash`
live in the service/task layer, which is not under `src/`; only the field
declarations (with their `unique=True` constraints, models.py lines 122, 164
and 167) are.  The operations below are therefore modelled from the spec:
"submission transaction hash (nullable, unique — set at most once)" and
"the write that records the transaction hash must be unique-constrained so
that a retried submission cannot silently overwrite a prior hash"
(spec sections 3 and 4.3); a write whose guard fails is the
`PersistenceConflict` no-op of the spec's error taxonomy. -/

inductive FundingOp where
  | createIntent (safe : String)
  | setCreationTxHash (safe h : String)
  | setDeployerFundedTxHash (safe h : String)
  | setSafeDeployedTxHash (safe h : String)
  | markSafeFunded (safe : String)
  | markDeployerFunded (safe : String)
  | markSafeDeployed (safe : String)
  deriving DecidableEq, Repr

/-- Modelled from the spec: intent creation persists the wallet row and its
creation/funding rows with every hash null (the source fields default to
`None`); the primary keys keep the rows one-to-one per wallet. -/
def createIntent (db : RelayDB) (safe : String) : RelayDB :=
  if db.safe_contracts.all (fun r => !(r.address = safe)) &&
     db.safe_creation2s.all (fun r => !(r.safe = safe)) &&
     db.safe_fundings.all (fun r => !(r.safe = safe)) then
    { db with
      safe_contracts := db.safe_contracts ++ [{ address := safe }],
      safe_creation2s := db.safe_creation2s ++ [{ safe := safe }],
      safe_fundings := db.safe_fundings ++ [{ safe := safe }] }
  else db

/-- Modelled from the spec: record the deployment-intent submission hash —
only onto a still-null field (set at most once) and only when no other row
holds the same hash (`unique=True` on models.py line 122). -/
def setCreationTxHash (db : RelayDB) (safe h : String) : RelayDB :=
  if db.safe_creation2s.all (fun r => !(r.tx_hash = some h)) then
    { db with
      safe_creation2s := db.safe_creation2s.map (fun r =>
        if r.safe = safe ∧ r.tx_hash = none then { r with tx_hash := some h } else r) }
  else db

/-- Modelled from the spec: record the deployer-funding submission hash —
set at most once, `unique=True` on models.py line 164. -/
def setDeployerFundedTxHash (db : RelayDB) (safe h : String) : RelayDB :=
  if db.safe_fundings.all (fun r => !(r.deployer_funded_tx_hash = some h)) then
    { db with
      safe_fundings := db.safe_fundings.map (fun r =>
        if r.safe = safe ∧ r.deployer_funded_tx_hash = none then
          { r with deployer_funded_tx_hash := some h }
        else r) }
  else db

/-- Modelled from the spec: record the deployment submission hash —
set at most once, `unique=True` on models.py line 167. -/
def setSafeDeployedTxHash (db : RelayDB) (safe h : String) : RelayDB :=
  if db.safe_fundings.all (fun r => !(r.safe_deployed_tx_hash = some h)) then
    { db with
      safe_fundings := db.safe_fundings.map (fun r =>
        if r.safe = safe ∧ r.safe_deployed_tx_hash = none then
          { r with safe_deployed_tx_hash := some h }
        else r) }
  else db

/-- Modelled from the spec: the reconciliation scanner sets the boolean
mined/balance facts; these writes never touch a hash field. -/
def markFundingFlag (db : RelayDB) (safe : String)
    (upd : SafeFunding → SafeFunding) : RelayDB :=
  { db with
    safe_fundings := db.safe_fundings.map (fun r =>
      if r.safe = safe then upd r else r) }

def stepFundingOp (db : RelayDB) : FundingOp → RelayDB
  | FundingOp.createIntent safe => createIntent db safe
  | FundingOp.setCreationTxHash safe h => setCreationTxHash db safe h
  | FundingOp.setDeployerFundedTxHash safe h => setDeployerFundedTxHash db safe h
  | FundingOp.setSafeDeployedTxHash safe h => setSafeDeployedTxHash db safe h
  | FundingOp.markSafeFunded safe =>
    markFundingFlag db safe (fun r => { r with safe_funded := true })
  | FundingOp.markDeployerFunded safe =>
    markFundingFlag db safe (fun r => { r with deployer_funded := true })
  | FundingOp.markSafeDeployed safe =>
    markFundingFlag db safe (fun r => { r with safe_deployed := true })

def applyFundingOps (db : RelayDB) (ops : List FundingOp) : RelayDB :=
  ops.foldl stepFundingOp db

/-- The deployment-intent submission hash recorded for a wallet. -/
def creationTxHashOf (db : RelayDB) (safe : String) : Option String :=
  match db.safe_creation2s.find? (fun r => r.safe = safe) with
  | some r => r.tx_hash
  | none => none

/-- The deployer-funding submission hash recorded for a wallet. -/
def deployerFundedTxHashOf (db : RelayDB) (safe : String) : Option String :=
  match db.safe_fundings.find? (fun r => r.safe = safe) with
  | some r => r.deployer_funded_tx_hash
  | none => none

/-- The deployment submission hash recorded for a wallet. -/
def safeDeployedTxHashOf (db : RelayDB) (safe : String) : Option String :=
  match db.safe_fundings.find? (fun r => r.safe = safe) with
  | some r => r.safe_deployed_tx_hash
  | none => none

/-- Global uniqueness of the non-null values of one hash field across a
row list. -/
def HashUnique {α : Type} (f : α → Option String) (l : List α) : Prop :=
  l.Pairwise (fun a b => (f a).isSome → f a ≠ f b)

/-- The database invariant behind claim C4: one row per wallet in each
table, and each of the three hash fields globally unique among non-null
values. -/
def HashInv (db : RelayDB) : Prop :=
  db.safe_creation2s.Pairwise (fun a b => a.safe ≠ b.safe) ∧
  db.safe_fundings.Pairwise (fun a b => a.safe ≠ b.safe) ∧
  HashUnique (fun r : SafeCreation2 => r.tx_hash) db.safe_creation2s ∧
  HashUnique (fun r : SafeFunding => r.deployer_funded_tx_hash) db.safe_fundings ∧
  HashUnique (fun r : SafeFunding => r.safe_deployed_tx_hash) db.safe_fundings

/-! ## `RedisService` (safe/redis_service.py lines 5-12)

`__new__` stores the first allocated object on the class and returns it to
every later constructor call; `__init__` still runs on every call and
reassigns `self.redis = Redis.from_url(settings.REDIS_URL)`.  The process
state tracks the class attribute `instance`, an object-identity counter and
the singleton's `redis` attribute; connections made by `Redis.from_url` are
numbered in creation order. -/

structure RedisServiceState where
  instanceId : Option Nat := none
  nextObjId : Nat := 0
  redisAttr : Option Nat := none
  fromUrlCalls : Nat := 0
  deriving DecidableEq, Repr

/-- Embeds `RedisService.__new__`: allocate an object only when the class
has no `instance` attribute yet; always return `cls.instance`. -/
def redisServiceNew (s : RedisServiceState) : Nat × RedisServiceState :=
  match s.instanceId with
  | some i => (i, s)
  | none =>
    (s.nextObjId,
     { s with instanceId := some s.nextObjId, nextObjId := s.nextObjId + 1 })

/-- Embeds `RedisService.__init__`: reassign the singleton's `redis`
attribute to a fresh connection from `Redis.from_url`. -/
def redisServiceInit (s : RedisServiceState) : RedisServiceState :=
  { s with redisAttr := some s.fromUrlCalls, fromUrlCalls := s.fromUrlCalls + 1 }

/-- Constructing `RedisService()`: Python runs `__new__` and then `__init__` on the
object it returned. -/
def redisServiceConstruct (s : RedisServiceState) : Nat × RedisServiceState :=
  let (i, s') := redisServiceNew s
  (i, redisServiceInit s')

/-- Process state after `n` constructor calls, starting from a fresh
process. -/
def redisServiceAfterCalls : Nat → RedisServiceState
  | 0 => {}
  | n + 1 => (redisServiceConstruct (redisServiceAfterCalls n)).2

/-- The object returned by the `(n+1)`-th constructor call. -/
def redisServiceCallResult (n : Nat) : Nat :=
  (redisServiceConstruct (redisServiceAfterCalls n)).1

/-! ## Theorems -/

/-- C10: `parse_call_type` is total on its `Option String` input (it is a
Lean function, so it never raises): it returns `CALL` for any casing of
`"call"`, `DELEGATE_CALL` for any casing of `"delegatecall"`, and `none` for
`None`, the empty string and every other string. -/
theorem parse_call_type_total (s : String) :
    parse_call_type none = none ∧
    parse_call_type (some "") = none ∧
    (pyLower s = "call" → parse_call_type (some s) = some EthereumTxCallType.CALL) ∧
    (pyLower s = "delegatecall" →
      parse_call_type (some s) = some EthereumTxCallType.DELEGATE_CALL) ∧
    (pyLower s ≠ "call" → pyLower s ≠ "delegatecall" →
      parse_call_type (some s) = none) := by
  have hempty : pyLower "" = "" := rfl
  refine ⟨rfl, rfl, ?_, ?_, ?_⟩
  · intro h
    have hs : s ≠ "" := by
      intro he
      rw [he, hempty] at h
      exact absurd h (by decide)
    simp [parse_call_type, hs, h]
  · intro h
    have hs : s ≠ "" := by
      intro he
      rw [he, hempty] at h
      exact absurd h (by decide)
    have hne : pyLower s ≠ "call" := by
      rw [h]
      decide
    simp [parse_call_type, hs, h, hne]
  · intro h1 h2
    by_cases hs : s = ""
    · simp [parse_call_type, hs]
    · simp [parse_call_type, hs, h1, h2]

/-- Witness for C10 at the concrete casings `"CaLL"` and `"DelegateCall"`. -/
theorem parse_call_type_total_witness :
    parse_call_type (some "CaLL") = some EthereumTxCallType.CALL ∧
    parse_call_type (some "DelegateCall") = some EthereumTxCallType.DELEGATE_CALL :=
  ⟨(parse_call_type_total "CaLL").2.2.1 (by decide),
   (parse_call_type_total "DelegateCall").2.2.2.1 (by decide)⟩

/-- C2: `SafeFunding.status` maps the recorded facts to the lifecycle
states in fixed priority order — `DEPLOYED` when the deployment is marked
mined, else `DEPLOYED_UNCHECKED` when a deployment hash is recorded, else
`DEPLOYER_FUNDED` when the deployer funding is marked mined, else
`DEPLOYER_FUNDED_UNCHECKED` when a deployer-funding hash is recorded, else
`DEPLOYER_NOT_FUNDED_SAFE_WITH_BALANCE` when the balance fact is set, else
`SAFE_WITHOUT_BALANCE` — and hence coincides with the evaluation
`statusSpec` written from the spec's section 4.3. -/
theorem safeFunding_status_priority (f : SafeFunding) :
    f.status = statusSpec f ∧
    (f.safe_deployed = true → f.status = "DEPLOYED") ∧
    (f.safe_deployed = false → f.safe_deployed_tx_hash.isSome →
      f.status = "DEPLOYED_UNCHECKED") ∧
    (f.safe_deployed = false → f.safe_deployed_tx_hash = none →
      f.deployer_funded = true → f.status = "DEPLOYER_FUNDED") ∧
    (f.safe_deployed = false → f.safe_deployed_tx_hash = none →
      f.deployer_funded = false → f.deployer_funded_tx_hash.isSome →
      f.status = "DEPLOYER_FUNDED_UNCHECKED") ∧
    (f.safe_deployed = false → f.safe_deployed_tx_hash = none →
      f.deployer_funded = false → f.deployer_funded_tx_hash = none →
      f.safe_funded = true → f.status = "DEPLOYER_NOT_FUNDED_SAFE_WITH_BALANCE") ∧
    (f.safe_deployed = false → f.safe_deployed_tx_hash = none →
      f.deployer_funded = false → f.deployer_funded_tx_hash = none →
      f.safe_funded = false → f.status = "SAFE_WITHOUT_BALANCE") := by
  refine ⟨rfl, ?_, ?_, ?_, ?_, ?_, ?_⟩ <;>
    intros <;> simp_all [SafeFunding.status]

/-- Witness for C2: a record with only the balance fact set evaluates to
the funded-awaiting-deployer state. -/
theorem safeFunding_status_priority_witness :
    SafeFunding.status { safe := "0xS", safe_funded := true } =
      "DEPLOYER_NOT_FUNDED_SAFE_WITH_BALANCE" :=
  (safeFunding_status_priority { safe := "0xS", safe_funded := true }).2.2.2.2.2.1
    rfl rfl rfl rfl rfl

/-- C8: `status()` does not cross-validate fact consistency — a record
marked deployed with no recorded deployment hash still evaluates to
`DEPLOYED`, and a record marked deployer-funded with no recorded
deployer-funding hash (and no deployment fact) still evaluates to
`DEPLOYER_FUNDED`; hash presence is not a precondition for the mined
states. -/
theorem safeFunding_status_no_cross_validation (f g : SafeFunding) :
    (f.safe_deployed = true → f.safe_deployed_tx_hash = none →
      f.status = "DEPLOYED") ∧
    (g.safe_deployed = false → g.safe_deployed_tx_hash = none →
      g.deployer_funded = true → g.deployer_funded_tx_hash = none →
      g.status = "DEPLOYER_FUNDED") := by
  constructor <;> intros <;> simp_all [SafeFunding.status]

/-- Witness for C8 at concrete inconsistent records. -/
theorem safeFunding_status_no_cross_validation_witness :
    SafeFunding.status { safe := "0xA", safe_deployed := true } = "DEPLOYED" ∧
    SafeFunding.status { safe := "0xB", deployer_funded := true } =
      "DEPLOYER_FUNDED" :=
  ⟨(safeFunding_status_no_cross_validation { safe := "0xA", safe_deployed := true }
      { safe := "0xB", deployer_funded := true }).1 rfl rfl,
   (safeFunding_status_no_cross_validation { safe := "0xA", safe_deployed := true }
      { safe := "0xB", deployer_funded := true }).2 rfl rfl rfl rfl⟩

/-- After at least one constructor call, the process state is fully
determined: the class holds object 0, and the singleton's `redis` attribute
is the connection created by the latest call. -/
lemma redisServiceAfterCalls_succ (n : Nat) :
    redisServiceAfterCalls (n + 1) =
      { instanceId := some 0, nextObjId := 1, redisAttr := some n,
        fromUrlCalls := n + 1 } := by
  induction n with
  | zero => rfl
  | succ k ih =>
    show (redisServiceConstruct (redisServiceAfterCalls (k + 1))).2 = _
    rw [ih]
    rfl

/-- C9: constructing `RedisService` is idempotent at the instance level —
every call returns the object returned by the first call — while `__init__`
still runs each time: after `n + 1` calls, `Redis.from_url` has been invoked
`n + 1` times and the singleton's `redis` attribute holds the connection
created by the latest call. -/
theorem redisService_singleton_reinit (n : Nat) :
    redisServiceCallResult n = redisServiceCallResult 0 ∧
    (redisServiceAfterCalls (n + 1)).fromUrlCalls = n + 1 ∧
    (redisServiceAfterCalls (n + 1)).redisAttr = some n := by
  cases n with
  | zero => exact ⟨rfl, rfl, rfl⟩
  | succ k =>
    refine ⟨?_, ?_, ?_⟩
    · show (redisServiceConstruct (redisServiceAfterCalls (k + 1))).1 = _
      rw [redisServiceAfterCalls_succ]
      rfl
    · rw [redisServiceAfterCalls_succ]
    · rw [redisServiceAfterCalls_succ]

/-- The rank of the status is the maximum of the ranks contributed by the
facts that are set. -/
lemma statusRank_status (f : SafeFunding) :
    statusRank f.status =
      max (if f.safe_deployed then 5 else 0)
       (max (if f.safe_deployed_tx_hash.isSome then 4 else 0)
        (max (if f.deployer_funded then 3 else 0)
         (max (if f.deployer_funded_tx_hash.isSome then 2 else 0)
          (if f.safe_funded then 1 else 0)))) := by
  unfold SafeFunding.status statusRank
  by_cases h1 : f.safe_deployed <;> by_cases h2 : f.safe_deployed_tx_hash.isSome <;>
    by_cases h3 : f.deployer_funded <;> by_cases h4 : f.deployer_funded_tx_hash.isSome <;>
    by_cases h5 : f.safe_funded <;> simp [h1, h2, h3, h4, h5]

lemma rank_if_mono (c1 c2 : Prop) [Decidable c1] [Decidable c2] (k : Nat)
    (h : c1 → c2) : (if c1 then k else 0) ≤ (if c2 then k else 0) := by
  split_ifs with a b
  · exact Nat.le_refl k
  · exact absurd (h a) b
  · exact Nat.zero_le k
  · exact Nat.le_refl 0

/-- C3: `status()` is monotone in the recorded facts — if `F2` has every
boolean flag and non-null hash of `F1`, then `status F2` is at least as far
along the lifecycle ordering (via `statusRank`) as `status F1`; adding a
fact never regresses the status. -/
theorem safeFunding_status_monotone (f1 f2 : SafeFunding) (h : FactsLE f1 f2) :
    statusRank f1.status ≤ statusRank f2.status := by
  obtain ⟨h1, h2, h3, h4, h5⟩ := h
  rw [statusRank_status, statusRank_status]
  have e1 := rank_if_mono (f1.safe_deployed = true) (f2.safe_deployed = true) 5 h4
  have e2 := rank_if_mono (f1.safe_deployed_tx_hash.isSome = true)
    (f2.safe_deployed_tx_hash.isSome = true) 4 h5
  have e3 := rank_if_mono (f1.deployer_funded = true) (f2.deployer_funded = true) 3 h2
  have e4 := rank_if_mono (f1.deployer_funded_tx_hash.isSome = true)
    (f2.deployer_funded_tx_hash.isSome = true) 2 h3
  have e5 := rank_if_mono (f1.safe_funded = true) (f2.safe_funded = true) 1 h1
  exact max_le_max e1 (max_le_max e2 (max_le_max e3 (max_le_max e4 e5)))

/-- Witness for C3: adding the deployer-funded fact to a balance-only
record does not regress the status. -/
theorem safeFunding_status_monotone_witness :
    statusRank (SafeFunding.status { safe := "0xW", safe_funded := true }) ≤
      statusRank (SafeFunding.status
        { safe := "0xW", safe_funded := true, deployer_funded := true }) :=
  safeFunding_status_monotone _ _ (by unfold FactsLE; decide)

/-- C5: `get_last_nonce_for_safe` returns `None` exactly when the wallet
has no `SafeMultisigTx` record, otherwise the maximum nonce among the
wallet's records; the sequencer's next nonce is that value plus one. -/
theorem get_last_nonce_for_safe_spec (db : List SafeMultisigTx) (a : String) :
    (get_last_nonce_for_safe db a = none ↔ ∀ tx ∈ db, tx.safe ≠ a) ∧
    (∀ n, get_last_nonce_for_safe db a = some n ↔
      ((∃ tx ∈ db, tx.safe = a ∧ tx.nonce = n) ∧
       ∀ tx ∈ db, tx.safe = a → tx.nonce ≤ n)) ∧
    (∀ n, get_last_nonce_for_safe db a = some n →
      sequencerNextNonce db a = n + 1) := by
  refine ⟨?_, ?_, ?_⟩
  · rw [get_last_nonce_for_safe, List.max?_eq_none_iff, List.map_eq_nil_iff,
      List.filter_eq_nil_iff]
    simp
  · intro n
    rw [get_last_nonce_for_safe, List.max?_eq_some_iff']
    simp only [List.mem_map, List.mem_filter, decide_eq_true_eq]
    constructor
    · rintro ⟨⟨tx, ⟨htx, hsafe⟩, hnonce⟩, hmax⟩
      exact ⟨⟨tx, htx, hsafe, hnonce⟩,
        fun tx' htx' hsafe' => hmax tx'.nonce ⟨tx', ⟨htx', hsafe'⟩, rfl⟩⟩
    · rintro ⟨⟨tx, htx, hsafe, hnonce⟩, hmax⟩
      exact ⟨⟨tx, ⟨htx, hsafe⟩, hnonce⟩,
        fun b hb => by
          obtain ⟨tx', ⟨htx', hsafe'⟩, hb'⟩ := hb
          exact hb' ▸ hmax tx' htx' hsafe'⟩
  · intro n h
    rw [sequencerNextNonce, h]

/-- Witness for C5 at a concrete store: nonces 2 and 5 for the wallet give
last nonce 5 and next nonce 6. -/
theorem get_last_nonce_for_safe_spec_witness :
    sequencerNextNonce
      [{ safe := "0xS", nonce := 2 }, { safe := "0xT", nonce := 7 },
       { safe := "0xS", nonce := 5 }] "0xS" = 6 :=
  (get_last_nonce_for_safe_spec
    [{ safe := "0xS", nonce := 2 }, { safe := "0xT", nonce := 7 },
     { safe := "0xS", nonce := 5 }] "0xS").2.2 5 (by rfl)

/-- Insertion under the `(safe, nonce)` unique constraint preserves key
uniqueness, whether the insert is accepted or rejected. -/
lemma multisigKeyUnique_insert (db : List SafeMultisigTx) (tx : SafeMultisigTx)
    (h : multisigKeyUnique db) :
    multisigKeyUnique ((insertMultisigTx db tx).getD db) := by
  unfold insertMultisigTx
  split_ifs with hc
  · simp only [Option.getD_some]
    unfold multisigKeyUnique at h ⊢
    rw [List.pairwise_append]
    refine ⟨h, List.pairwise_singleton _ _, ?_⟩
    intro a ha b hb
    have hb' : b = tx := by simpa using hb
    subst hb'
    have hfree := List.all_eq_true.mp hc a ha
    simp only [Bool.not_eq_true', Bool.and_eq_false_iff, decide_eq_false_iff_not,
      decide_eq_true_eq] at hfree
    rintro ⟨hs, hn⟩
    rcases hfree with hdecide | hdecide
    · exact hdecide hs
    · exact hdecide hn
  · simpa using h

/-- C1: starting from an empty store, after every sequence of insert
operations no two `SafeMultisigTx` records share the `(safe, nonce)`
composite key — a nonce is assigned to a wallet at most once and never
reused. -/
theorem multisigTx_key_unique_after_inserts (txs : List SafeMultisigTx) :
    multisigKeyUnique (applyInserts [] txs) := by
  suffices h : ∀ db, multisigKeyUnique db → multisigKeyUnique (applyInserts db txs) by
    exact h [] List.Pairwise.nil
  induction txs with
  | nil => exact fun db h => h
  | cons t ts ih =>
    intro db h
    exact ih _ (multisigKeyUnique_insert db t h)

/-- C6 (amended): for every checksum-valid address the get-status view
answers `NotFound` when no `SafeCreation2` record exists and the serialized
record otherwise; a non-checksummed address is rejected with 422 before the
lookup; the view never modifies stored state.  The checksum predicate is the
external collaborator `Web3.isChecksumAddress`, taken as a parameter. -/
theorem safeSignalGet_contract (chk : String → Bool) (db : RelayDB)
    (address : String) :
    (safeSignalGet chk db address).2 = db ∧
    (chk address = false →
      (safeSignalGet chk db address).1 = SignalGetResponse.unprocessableEntity) ∧
    (chk address = true →
      db.safe_creation2s.find? (fun c => c.safe = address) = none →
      (safeSignalGet chk db address).1 = SignalGetResponse.notFound) ∧
    (chk address = true → ∀ c,
      db.safe_creation2s.find? (fun c => c.safe = address) = some c →
      (safeSignalGet chk db address).1 =
        SignalGetResponse.ok (serializeFunding2 c)) := by
  refine ⟨?_, ?_, ?_, ?_⟩
  · by_cases hc : chk address
    · cases hfind : db.safe_creation2s.find? (fun c => c.safe = address) <;>
        simp [safeSignalGet, hc, hfind]
    · simp [safeSignalGet, hc]
  · intro h
    simp [safeSignalGet, h]
  · intro h1 h2
    simp [safeSignalGet, h1, h2]
  · intro h1 c h2
    simp [safeSignalGet, h1, h2]

/-- Counterexample for C6 as stated: the claim quantifies over every
queried address, but the view rejects a non-checksummed address with 422,
not `NotFound`, even when no record exists.  At the concrete address `""`
(which
every faithful model of `Web3.isChecksumAddress` rejects, since it is not
`0x` followed by 40 hex digits — `hexAddressWellFormed` captures exactly
that necessary condition) with the empty store, the response is 422 rather
than the claimed `NotFound`. -/
theorem safeSignalGet_contract_counterexample :
    hexAddressWellFormed "" = false ∧
    ({} : RelayDB).safe_creation2s.find? (fun c => c.safe = "") = none ∧
    (safeSignalGet hexAddressWellFormed {} "").1 =
      SignalGetResponse.unprocessableEntity ∧
    (safeSignalGet hexAddressWellFormed {} "").1 ≠ SignalGetResponse.notFound :=
  ⟨rfl, rfl, rfl, by decide⟩

/-- Witness for C6 at a checksum-valid concrete address (all-digit
addresses carry no case information, so they are checksum-valid for the
real `Web3.isChecksumAddress` as well). -/
theorem safeSignalGet_contract_witness :
    (safeSignalGet hexAddressWellFormed
      { safe_creation2s :=
          [{ safe := "0x0000000000000000000000000000000000000000",
             tx_hash := some "0xdeadbeef", block_number := some 100 }] }
      "0x0000000000000000000000000000000000000000").1 =
      SignalGetResponse.ok
        { funding_status := "DEPLOYED", tx_hash := some "0xdeadbeef",
          block_number := some 100 } :=
  (safeSignalGet_contract hexAddressWellFormed
    { safe_creation2s :=
        [{ safe := "0x0000000000000000000000000000000000000000",
           tx_hash := some "0xdeadbeef", block_number := some 100 }] }
    "0x0000000000000000000000000000000000000000").2.2.2 (by decide) _ rfl

/-- C7 (amended): for every checksum-valid address the force-check view
enqueues exactly one `deploy_create2_safe_task` and answers 202 when a
`SafeContract` row exists, and answers 404 enqueuing nothing when none
exists; a non-checksummed address is rejected with 422 enqueuing nothing;
the view never modifies stored state. -/
theorem safeSignalPut_contract (chk : String → Bool) (db : RelayDB)
    (address : String) :
    (safeSignalPut chk db address).2.2 = db ∧
    (chk address = false →
      (safeSignalPut chk db address).1 = SignalPutResponse.unprocessableEntity ∧
      (safeSignalPut chk db address).2.1 = []) ∧
    (chk address = true →
      db.safe_contracts.find? (fun c => c.address = address) = none →
      (safeSignalPut chk db address).1 = SignalPutResponse.notFound ∧
      (safeSignalPut chk db address).2.1 = []) ∧
    (chk address = true → ∀ c,
      db.safe_contracts.find? (fun c => c.address = address) = some c →
      (safeSignalPut chk db address).1 = SignalPutResponse.accepted ∧
      (safeSignalPut chk db address).2.1 = [address]) := by
  refine ⟨?_, ?_, ?_, ?_⟩
  · by_cases hc : chk address
    · cases hfind : db.safe_contracts.find? (fun c => c.address = address) <;>
        simp [safeSignalPut, hc, hfind]
    · simp [safeSignalPut, hc]
  · intro h
    simp [safeSignalPut, h]
  · intro h1 h2
    simp [safeSignalPut, h1, h2]
  · intro h1 c h2
    simp [safeSignalPut, h1, h2]

/-- Counterexample for C7 as stated: at the concrete address `""` (rejected
by every faithful model of `Web3.isChecksumAddress`) with the empty store —
where no wallet record exists — the view answers 422, not the claimed
`NotFound`. -/
theorem safeSignalPut_contract_counterexample :
    hexAddressWellFormed "" = false ∧
    ({} : RelayDB).safe_contracts.find? (fun c => c.address = "") = none ∧
    (safeSignalPut hexAddressWellFormed {} "").1 =
      SignalPutResponse.unprocessableEntity ∧
    (safeSignalPut hexAddressWellFormed {} "").1 ≠ SignalPutResponse.notFound :=
  ⟨rfl, rfl, rfl, by decide⟩

/-- Witness for C7: a stored wallet at a checksum-valid concrete address is
accepted with exactly one enqueued task. -/
theorem safeSignalPut_contract_witness :
    (safeSignalPut hexAddressWellFormed
      { safe_contracts :=
          [{ address := "0x0000000000000000000000000000000000000001" }] }
      "0x0000000000000000000000000000000000000001").1 =
      SignalPutResponse.accepted ∧
    (safeSignalPut hexAddressWellFormed
      { safe_contracts :=
          [{ address := "0x0000000000000000000000000000000000000001" }] }
      "0x0000000000000000000000000000000000000001").2.1 =
      ["0x0000000000000000000000000000000000000001"] :=
  (safeSignalPut_contract hexAddressWellFormed
    { safe_contracts :=
        [{ address := "0x0000000000000000000000000000000000000001" }] }
    "0x0000000000000000000000000000000000000001").2.2.2 (by decide) _ rfl

/-- Lookup commutes with a map that does not change the predicate's
verdict. -/
lemma find?_map_pres {α : Type} (l : List α) (upd : α → α) (p : α → Bool)
    (hupd : ∀ r, p (upd r) = p r) :
    (l.map upd).find? p = (l.find? p).map upd := by
  rw [List.find?_map]
  have hp : (p ∘ upd) = p := funext fun r => hupd r
  rw [hp]

/-- An accepted or rejected step never erases nor changes a recorded
deployment-intent submission hash. -/
lemma creationTxHashOf_step_mono (db : RelayDB) (op : FundingOp) (w h : String)
    (hw : creationTxHashOf db w = some h) :
    creationTxHashOf (stepFundingOp db op) w = some h := by
  obtain ⟨r, hfind, hr⟩ : ∃ r, db.safe_creation2s.find? (fun r => r.safe = w) = some r ∧
      r.tx_hash = some h := by
    unfold creationTxHashOf at hw
    cases hfind : db.safe_creation2s.find? (fun r => r.safe = w) with
    | none => rw [hfind] at hw; exact absurd hw (by simp)
    | some r => rw [hfind] at hw; exact ⟨r, rfl, hw⟩
  cases op with
  | createIntent s =>
    show creationTxHashOf (createIntent db s) w = some h
    unfold createIntent
    split_ifs with hg
    · unfold creationTxHashOf
      simp only []
      rw [List.find?_append, hfind]
      simpa using hr
    · unfold creationTxHashOf
      rw [hfind]
      exact hr
  | setCreationTxHash s h' =>
    show creationTxHashOf (setCreationTxHash db s h') w = some h
    unfold setCreationTxHash
    split_ifs with hg
    · unfold creationTxHashOf
      simp only []
      rw [find?_map_pres _ _ _ (fun r => by split_ifs <;> rfl), hfind]
      simp only [Option.map_some']
      split_ifs with hc
      · exact absurd hc.2 (by simp [hr])
      · exact hr
    · unfold creationTxHashOf
      rw [hfind]
      exact hr
  | setDeployerFundedTxHash s h' =>
    show creationTxHashOf (setDeployerFundedTxHash db s h') w = some h
    unfold setDeployerFundedTxHash creationTxHashOf at *
    split_ifs <;> rw [hfind] <;> exact hr
  | setSafeDeployedTxHash s h' =>
    show creationTxHashOf (setSafeDeployedTxHash db s h') w = some h
    unfold setSafeDeployedTxHash creationTxHashOf at *
    split_ifs <;> rw [hfind] <;> exact hr
  | markSafeFunded s =>
    unfold stepFundingOp markFundingFlag creationTxHashOf at *
    rw [hfind]
    exact hr
  | markDeployerFunded s =>
    unfold stepFundingOp markFundingFlag creationTxHashOf at *
    rw [hfind]
    exact hr
  | markSafeDeployed s =>
    unfold stepFundingOp markFundingFlag creationTxHashOf at *
    rw [hfind]
    exact hr

/-- An accepted or rejected step never erases nor changes a recorded
deployer-funding submission hash. -/
lemma deployerFundedTxHashOf_step_mono (db : RelayDB) (op : FundingOp)
    (w h : String) (hw : deployerFundedTxHashOf db w = some h) :
    deployerFundedTxHashOf (stepFundingOp db op) w = some h := by
  obtain ⟨r, hfind, hr⟩ : ∃ r, db.safe_fundings.find? (fun r => r.safe = w) = some r ∧
      r.deployer_funded_tx_hash = some h := by
    unfold deployerFundedTxHashOf at hw
    cases hfind : db.safe_fundings.find? (fun r => r.safe = w) with
    | none => rw [hfind] at hw; exact absurd hw (by simp)
    | some r => rw [hfind] at hw; exact ⟨r, rfl, hw⟩
  cases op with
  | createIntent s =>
    show deployerFundedTxHashOf (createIntent db s) w = some h
    unfold createIntent
    split_ifs with hg
    · unfold deployerFundedTxHashOf
      simp only []
      rw [List.find?_append, hfind]
      simpa using hr
    · unfold deployerFundedTxHashOf
      rw [hfind]
      exact hr
  | setCreationTxHash s h' =>
    show deployerFundedTxHashOf (setCreationTxHash db s h') w = some h
    unfold setCreationTxHash deployerFundedTxHashOf at *
    split_ifs <;> rw [hfind] <;> exact hr
  | setDeployerFundedTxHash s h' =>
    show deployerFundedTxHashOf (setDeployerFundedTxHash db s h') w = some h
    unfold setDeployerFundedTxHash
    split_ifs with hg
    · unfold deployerFundedTxHashOf
      simp only []
      rw [find?_map_pres _ _ _ (fun r => by split_ifs <;> rfl), hfind]
      simp only [Option.map_some']
      split_ifs with hc
      · exact absurd hc.2 (by simp [hr])
      · exact hr
    · unfold deployerFundedTxHashOf
      rw [hfind]
      exact hr
  | setSafeDeployedTxHash s h' =>
    show deployerFundedTxHashOf (setSafeDeployedTxHash db s h') w = some h
    unfold setSafeDeployedTxHash
    split_ifs with hg
    · unfold deployerFundedTxHashOf
      simp only []
      rw [find?_map_pres _ _ _ (fun r => by split_ifs <;> rfl), hfind]
      simp only [Option.map_some']
      split_ifs with hc
      · exact hr
      · exact hr
    · unfold deployerFundedTxHashOf
      rw [hfind]
      exact hr
  | markSafeFunded s =>
    show deployerFundedTxHashOf (markFundingFlag db s _) w = some h
    unfold markFundingFlag deployerFundedTxHashOf
    simp only []
    rw [find?_map_pres _ _ _ (fun r => by split_ifs <;> rfl), hfind]
    simp only [Option.map_some']
    split_ifs <;> exact hr
  | markDeployerFunded s =>
    show deployerFundedTxHashOf (markFundingFlag db s _) w = some h
    unfold markFundingFlag deployerFundedTxHashOf
    simp only []
    rw [find?_map_pres _ _ _ (fun r => by split_ifs <;> rfl), hfind]
    simp only [Option.map_some']
    split_ifs <;> exact hr
  | markSafeDeployed s =>
    show deployerFundedTxHashOf (markFundingFlag db s _) w = some h
    unfold markFundingFlag deployerFundedTxHashOf
    simp only []
    rw [find?_map_pres _ _ _ (fun r => by split_ifs <;> rfl), hfind]
    simp only [Option.map_some']
    split_ifs <;> exact hr

/-- An accepted or rejected step never erases nor changes a recorded
deployment submission hash. -/
lemma safeDeployedTxHashOf_step_mono (db : RelayDB) (op : FundingOp)
    (w h : String) (hw : safeDeployedTxHashOf db w = some h) :
    safeDeployedTxHashOf (stepFundingOp db op) w = some h := by
  obtain ⟨r, hfind, hr⟩ : ∃ r, db.safe_fundings.find? (fun r => r.safe = w) = some r ∧
      r.safe_deployed_tx_hash = some h := by
    unfold safeDeployedTxHashOf at hw
    cases hfind : db.safe_fundings.find? (fun r => r.safe = w) with
    | none => rw [hfind] at hw; exact absurd hw (by simp)
    | some r => rw [hfind] at hw; exact ⟨r, rfl, hw⟩
  cases op with
  | createIntent s =>
    show safeDeployedTxHashOf (createIntent db s) w = some h
    unfold createIntent
    split_ifs with hg
    · unfold safeDeployedTxHashOf
      simp only []
      rw [List.find?_append, hfind]
      simpa using hr
    · unfold safeDeployedTxHashOf
      rw [hfind]
      exact hr
  | setCreationTxHash s h' =>
    show safeDeployedTxHashOf (setCreationTxHash db s h') w = some h
    unfold setCreationTxHash safeDeployedTxHashOf at *
    split_ifs <;> rw [hfind] <;> exact hr
  | setDeployerFundedTxHash s h' =>
    show safeDeployedTxHashOf (setDeployerFundedTxHash db s h') w = some h
    unfold setDeployerFundedTxHash
    split_ifs with hg
    · unfold safeDeployedTxHashOf
      simp only []
      rw [find?_map_pres _ _ _ (fun r => by split_ifs <;> rfl), hfind]
      simp only [Option.map_some']
      split_ifs <;> exact hr
    · unfold safeDeployedTxHashOf
      rw [hfind]
      exact hr
  | setSafeDeployedTxHash s h' =>
    show safeDeployedTxHashOf (setSafeDeployedTxHash db s h') w = some h
    unfold setSafeDeployedTxHash
    split_ifs with hg
    · unfold safeDeployedTxHashOf
      simp only []
      rw [find?_map_pres _ _ _ (fun r => by split_ifs <;> rfl), hfind]
      simp only [Option.map_some']
      split_ifs with hc
      · exact absurd hc.2 (by simp [hr])
      · exact hr
    · unfold safeDeployedTxHashOf
      rw [hfind]
      exact hr
  | markSafeFunded s =>
    show safeDeployedTxHashOf (markFundingFlag db s _) w = some h
    unfold markFundingFlag safeDeployedTxHashOf
    simp only []
    rw [find?_map_pres _ _ _ (fun r => by split_ifs <;> rfl), hfind]
    simp only [Option.map_some']
    split_ifs <;> exact hr
  | markDeployerFunded s =>
    show safeDeployedTxHashOf (markFundingFlag db s _) w = some h
    unfold markFundingFlag safeDeployedTxHashOf
    simp only []
    rw [find?_map_pres _ _ _ (fun r => by split_ifs <;> rfl), hfind]
    simp only [Option.map_some']
    split_ifs <;> exact hr
  | markSafeDeployed s =>
    show safeDeployedTxHashOf (markFundingFlag db s _) w = some h
    unfold markFundingFlag safeDeployedTxHashOf
    simp only []
    rw [find?_map_pres _ _ _ (fun r => by split_ifs <;> rfl), hfind]
    simp only [Option.map_some']
    split_ifs <;> exact hr

/-- Mapping a relation-preserving update over a list keeps it pairwise. -/
lemma pairwise_map_pres {α : Type} (l : List α) (upd : α → α) (R : α → α → Prop)
    (hpres : ∀ a b, R a b → R (upd a) (upd b)) (h : l.Pairwise R) :
    (l.map upd).Pairwise R := by
  rw [List.pairwise_map]
  exact h.imp (fun hab => hpres _ _ hab)

/-- Every step — intent creation, hash recording, fact marking — preserves
the hash-uniqueness invariant. -/
lemma hashInv_step (db : RelayDB) (op : FundingOp) (h : HashInv db) :
    HashInv (stepFundingOp db op) := by
  obtain ⟨hpkC, hpkF, huC, huD, huS⟩ := h
  cases op with
  | createIntent s =>
    show HashInv (createIntent db s)
    unfold createIntent
    split_ifs with hg
    · simp only [Bool.and_eq_true, List.all_eq_true, Bool.not_eq_true',
        decide_eq_false_iff_not] at hg
      obtain ⟨⟨-, hgc⟩, hgf⟩ := hg
      refine ⟨?_, ?_, ?_, ?_, ?_⟩
      · show (db.safe_creation2s ++ [({ safe := s } : SafeCreation2)]).Pairwise _
        rw [List.pairwise_append]
        refine ⟨hpkC, List.pairwise_singleton _ _, ?_⟩
        intro a ha b hb
        have hb' : b = { safe := s } := by simpa using hb
        subst hb'
        exact hgc a ha
      · show (db.safe_fundings ++ [({ safe := s } : SafeFunding)]).Pairwise _
        rw [List.pairwise_append]
        refine ⟨hpkF, List.pairwise_singleton _ _, ?_⟩
        intro a ha b hb
        have hb' : b = { safe := s } := by simpa using hb
        subst hb'
        exact hgf a ha
      · show HashUnique _ (db.safe_creation2s ++ [({ safe := s } : SafeCreation2)])
        unfold HashUnique
        rw [List.pairwise_append]
        refine ⟨huC, List.pairwise_singleton _ _, ?_⟩
        intro a ha b hb
        have hb' : b = { safe := s } := by simpa using hb
        subst hb'
        intro hsome heq
        simp [heq] at hsome
      · show HashUnique _ (db.safe_fundings ++ [({ safe := s } : SafeFunding)])
        unfold HashUnique
        rw [List.pairwise_append]
        refine ⟨huD, List.pairwise_singleton _ _, ?_⟩
        intro a ha b hb
        have hb' : b = { safe := s } := by simpa using hb
        subst hb'
        intro hsome heq
        simp [heq] at hsome
      · show HashUnique _ (db.safe_fundings ++ [({ safe := s } : SafeFunding)])
        unfold HashUnique
        rw [List.pairwise_append]
        refine ⟨huS, List.pairwise_singleton _ _, ?_⟩
        intro a ha b hb
        have hb' : b = { safe := s } := by simpa using hb
        subst hb'
        intro hsome heq
        simp [heq] at hsome
    · exact ⟨hpkC, hpkF, huC, huD, huS⟩
  | setCreationTxHash s h' =>
    show HashInv (setCreationTxHash db s h')
    unfold setCreationTxHash
    split_ifs with hg
    · have hg' : ∀ r ∈ db.safe_creation2s, r.tx_hash ≠ some h' := by
        simpa using hg
      refine ⟨?_, hpkF, ?_, huD, huS⟩
      · exact pairwise_map_pres _ _ _
          (fun a b hab => by split_ifs <;> simpa using hab) hpkC
      · show HashUnique _ (db.safe_creation2s.map _)
        unfold HashUnique
        rw [List.pairwise_map]
        refine List.Pairwise.imp_of_mem ?_ (hpkC.and huC)
        intro a b ha hb hrel
        dsimp only
        split_ifs with ca cb cb
        · exact absurd (ca.1.trans cb.1.symm) hrel.1
        · exact fun _ e => hg' b hb e.symm
        · exact fun _ => hg' a ha
        · exact hrel.2
    · exact ⟨hpkC, hpkF, huC, huD, huS⟩
  | setDeployerFundedTxHash s h' =>
    show HashInv (setDeployerFundedTxHash db s h')
    unfold setDeployerFundedTxHash
    split_ifs with hg
    · have hg' : ∀ r ∈ db.safe_fundings, r.deployer_funded_tx_hash ≠ some h' := by
        simpa using hg
      refine ⟨hpkC, ?_, huC, ?_, ?_⟩
      · exact pairwise_map_pres _ _ _
          (fun a b hab => by split_ifs <;> simpa using hab) hpkF
      · show HashUnique _ (db.safe_fundings.map _)
        unfold HashUnique
        rw [List.pairwise_map]
        refine List.Pairwise.imp_of_mem ?_ (hpkF.and huD)
        intro a b ha hb hrel
        dsimp only
        split_ifs with ca cb cb
        · exact absurd (ca.1.trans cb.1.symm) hrel.1
        · exact fun _ e => hg' b hb e.symm
        · exact fun _ => hg' a ha
        · exact hrel.2
      · show HashUnique _ (db.safe_fundings.map _)
        exact pairwise_map_pres _ _ _
          (fun a b hab => by split_ifs <;> simpa using hab) huS
    · exact ⟨hpkC, hpkF, huC, huD, huS⟩
  | setSafeDeployedTxHash s h' =>
    show HashInv (setSafeDeployedTxHash db s h')
    unfold setSafeDeployedTxHash
    split_ifs with hg
    · have hg' : ∀ r ∈ db.safe_fundings, r.safe_deployed_tx_hash ≠ some h' := by
        simpa using hg
      refine ⟨hpkC, ?_, huC, ?_, ?_⟩
      · exact pairwise_map_pres _ _ _
          (fun a b hab => by split_ifs <;> simpa using hab) hpkF
      · show HashUnique _ (db.safe_fundings.map _)
        exact pairwise_map_pres _ _ _
          (fun a b hab => by split_ifs <;> simpa using hab) huD
      · show HashUnique _ (db.safe_fundings.map _)
        unfold HashUnique
        rw [List.pairwise_map]
        refine List.Pairwise.imp_of_mem ?_ (hpkF.and huS)
        intro a b ha hb hrel
        dsimp only
        split_ifs with ca cb cb
        · exact absurd (ca.1.trans cb.1.symm) hrel.1
        · exact fun _ e => hg' b hb e.symm
        · exact fun _ => hg' a ha
        · exact hrel.2
    · exact ⟨hpkC, hpkF, huC, huD, huS⟩
  | markSafeFunded s =>
    show HashInv (markFundingFlag db s _)
    unfold markFundingFlag
    refine ⟨hpkC, ?_, huC, ?_, ?_⟩ <;>
      exact pairwise_map_pres _ _ _
        (fun a b hab => by split_ifs <;> simpa using hab) (by assumption)
  | markDeployerFunded s =>
    show HashInv (markFundingFlag db s _)
    unfold markFundingFlag
    refine ⟨hpkC, ?_, huC, ?_, ?_⟩ <;>
      exact pairwise_map_pres _ _ _
        (fun a b hab => by split_ifs <;> simpa using hab) (by assumption)
  | markSafeDeployed s =>
    show HashInv (markFundingFlag db s _)
    unfold markFundingFlag
    refine ⟨hpkC, ?_, huC, ?_, ?_⟩ <;>
      exact pairwise_map_pres _ _ _
        (fun a b hab => by split_ifs <;> simpa using hab) (by assumption)

/-- C4: after every sequence of operations from an empty store, each of the
three submission hash fields — the deployment-intent hash
(`SafeCreation2.tx_hash`), the deployer-funding hash and the deployment hash
(`SafeFunding`) — is globally unique among its non-null values
(`HashInv`), and a hash once recorded for a wallet is never overwritten
with a different value by any further sequence of operations. -/
theorem submission_hashes_unique_and_set_once (ops more : List FundingOp)
    (w h : String) :
    HashInv (applyFundingOps {} ops) ∧
    (creationTxHashOf (applyFundingOps {} ops) w = some h →
      creationTxHashOf (applyFundingOps {} (ops ++ more)) w = some h) ∧
    (deployerFundedTxHashOf (applyFundingOps {} ops) w = some h →
      deployerFundedTxHashOf (applyFundingOps {} (ops ++ more)) w = some h) ∧
    (safeDeployedTxHashOf (applyFundingOps {} ops) w = some h →
      safeDeployedTxHashOf (applyFundingOps {} (ops ++ more)) w = some h) := by
  have happ : applyFundingOps {} (ops ++ more) =
      applyFundingOps (applyFundingOps {} ops) more := by
    unfold applyFundingOps
    rw [List.foldl_append]
  have hinv : ∀ (l : List FundingOp) (db : RelayDB),
      HashInv db → HashInv (applyFundingOps db l) := by
    intro l
    induction l with
    | nil => exact fun db hdb => hdb
    | cons o os ih => exact fun db hdb => ih _ (hashInv_step db o hdb)
  have hmC : ∀ (l : List FundingOp) (db : RelayDB),
      creationTxHashOf db w = some h →
      creationTxHashOf (applyFundingOps db l) w = some h := by
    intro l
    induction l with
    | nil => exact fun db hdb => hdb
    | cons o os ih =>
      exact fun db hdb => ih _ (creationTxHashOf_step_mono db o w h hdb)
  have hmD : ∀ (l : List FundingOp) (db : RelayDB),
      deployerFundedTxHashOf db w = some h →
      deployerFundedTxHashOf (applyFundingOps db l) w = some h := by
    intro l
    induction l with
    | nil => exact fun db hdb => hdb
    | cons o os ih =>
      exact fun db hdb => ih _ (deployerFundedTxHashOf_step_mono db o w h hdb)
  have hmS : ∀ (l : List FundingOp) (db : RelayDB),
      safeDeployedTxHashOf db w = some h →
      safeDeployedTxHashOf (applyFundingOps db l) w = some h := by
    intro l
    induction l with
    | nil => exact fun db hdb => hdb
    | cons o os ih =>
      exact fun db hdb => ih _ (safeDeployedTxHashOf_step_mono db o w h hdb)
  refine ⟨hinv ops {} ⟨List.Pairwise.nil, List.Pairwise.nil, List.Pairwise.nil,
    List.Pairwise.nil, List.Pairwise.nil⟩, ?_, ?_, ?_⟩
  · intro hset
    rw [happ]
    exact hmC more _ hset
  · intro hset
    rw [happ]
    exact hmD more _ hset
  · intro hset
    rw [happ]
    exact hmS more _ hset

/-- Witness for C4: a wallet whose intent hash is recorded as `"0xh1"`
still holds `"0xh1"` after a retried submission attempts to record
`"0xh2"`. -/
theorem submission_hashes_unique_and_set_once_witness :
    creationTxHashOf
      (applyFundingOps {}
        ([FundingOp.createIntent "0xA", FundingOp.setCreationTxHash "0xA" "0xh1"] ++
         [FundingOp.setCreationTxHash "0xA" "0xh2"])) "0xA" = some "0xh1" :=
  (submission_hashes_unique_and_set_once
    [FundingOp.createIntent "0xA", FundingOp.setCreationTxHash "0xA" "0xh1"]
    [FundingOp.setCreationTxHash "0xA" "0xh2"] "0xA" "0xh1").2.1 (by decide)

end SafeRelay
